import Mathlib

/-!
# cubz ECS: system membership synchronisation

A shallow embedding of `src/cubz-engine/ecs/SystemManager.cpp`
(`System::addEntity`, `System::removeEntity`, `SystemManager::entityDestroyed`,
`SystemManager::entitySignatureChanged`) and the properties of the system
entity sets that follow from it.

Representation choices (the declarations live in `SystemManager.h`, which is
not among the available sources, so they are read off the way the `.cpp` uses
the members):

* `Entity` is an unsigned identifier, embedded as `Nat`.
* `Signature` is a fixed-width bitset; it is embedded as the `Nat` whose binary
  digits are the bits. The only operations the code applies to it are `&` and
  `==`, neither of which can leave the width, so every statement proved for all
  naturals holds for every width. Where the width matters it is an explicit
  parameter `w` with the bound `s < 2 ^ w`.
* `m_entities` is a set of entities (`insert` / `erase`), embedded as
  `Finset Entity`.
* `m_systems` and `m_signatures` are maps keyed by the system type name. They
  are embedded as association lists; the range-for over `m_systems` visits the
  list front to back, and no statement below depends on the order.
* `m_signatures[typeName]` is the map subscript: it returns the stored value,
  and stores a value-initialised (all-zero) signature first when the key is
  absent.
-/

namespace cubz.ecs

abbrev Entity := Nat

abbrev Signature := Nat

abbrev TypeName := String

/-- A system: the set of entities it currently tracks (`m_entities`). -/
structure System where
  m_entities : Finset Entity
deriving DecidableEq

/-- `System::addEntity`: `m_entities.insert(entity)`. -/
def System.addEntity (self : System) (entity : Entity) : System :=
  { self with m_entities := insert entity self.m_entities }

/-- `System::removeEntity`: `m_entities.erase(entity)`. -/
def System.removeEntity (self : System) (entity : Entity) : System :=
  { self with m_entities := self.m_entities.erase entity }

/-- The two tables of `SystemManager`. -/
structure SystemManager where
  m_signatures : List (TypeName × Signature)
  m_systems : List (TypeName × System)
deriving DecidableEq

/-- The map subscript `m_signatures[typeName]`: the value stored under the key
and the map afterwards; an absent key is first bound to the all-zero
signature. -/
def subscript (m_signatures : List (TypeName × Signature)) (typeName : TypeName) :
    Signature × List (TypeName × Signature) :=
  match m_signatures.lookup typeName with
  | some systemSignature => (systemSignature, m_signatures)
  | none => (0, (typeName, 0) :: m_signatures)

/-- The condition of the `if` in `entitySignatureChanged`:
`(entitySignature & systemSignature) == systemSignature`. -/
def signaturesMatch (entitySignature systemSignature : Signature) : Bool :=
  (entitySignature &&& systemSignature) == systemSignature

/-- `SystemManager::entityDestroyed`: every system drops the entity. -/
def SystemManager.entityDestroyed (self : SystemManager) (entity : Entity) : SystemManager :=
  { self with
    m_systems := self.m_systems.map fun p => (p.1, p.2.removeEntity entity) }

/-- The body of the range-for of `entitySignatureChanged`, run over the
remaining entries of `m_systems` with the current `m_signatures`; returns the
updated entries and the final `m_signatures`. -/
def signatureChangedLoop (entity : Entity) (entitySignature : Signature) :
    List (TypeName × System) → List (TypeName × Signature) →
      List (TypeName × System) × List (TypeName × Signature)
  | [], m_signatures => ([], m_signatures)
  | (typeName, system) :: rest, m_signatures =>
    let r := subscript m_signatures typeName
    let systemSignature := r.1
    let system1 :=
      if signaturesMatch entitySignature systemSignature then
        system.addEntity entity
      else
        system.removeEntity entity
    let out := signatureChangedLoop entity entitySignature rest r.2
    ((typeName, system1) :: out.1, out.2)

/-- `SystemManager::entitySignatureChanged`. -/
def SystemManager.entitySignatureChanged (self : SystemManager) (entity : Entity)
    (entitySignature : Signature) : SystemManager :=
  let out := signatureChangedLoop entity entitySignature self.m_systems self.m_signatures
  { m_signatures := out.2, m_systems := out.1 }

/-- The required signature the loop reads for a system: the stored one, or the
all-zero signature the subscript creates. -/
def requiredOf (m_signatures : List (TypeName × Signature)) (typeName : TypeName) : Signature :=
  (m_signatures.lookup typeName).getD 0

/-- What one loop iteration does to a system, given the signature it read. -/
def resync (entity : Entity) (entitySignature systemSignature : Signature)
    (system : System) : System :=
  if signaturesMatch entitySignature systemSignature then system.addEntity entity
  else system.removeEntity entity

/-- The `m_signatures` table after the loop has subscripted it with the keys of
the given entries, front to back. -/
def signaturesAfter : List (TypeName × System) → List (TypeName × Signature) →
    List (TypeName × Signature)
  | [], m_signatures => m_signatures
  | (typeName, _) :: rest, m_signatures =>
    signaturesAfter rest (subscript m_signatures typeName).2

/-! ## The signature bitset and the facade around the system manager

`main.cpp` builds required signatures with `Signature::set(componentType)`.
The facade (`EntityComponentSystem`) and the entity registry are declared in
headers that are not among the available sources; they are modelled from the
specification, which fixes their observable contracts. -/

abbrev ComponentType := Nat

/-- The bitset member `set(pos)`: turn bit `pos` on. -/
def Signature.set (self : Signature) (pos : ComponentType) : Signature :=
  self ||| (1 <<< pos)

/-- The bitset member `reset(pos)`: turn bit `pos` off. -/
def Signature.reset (self : Signature) (pos : ComponentType) : Signature :=
  self ^^^ (self &&& (1 <<< pos))

/-- The error taxonomy of the specification, as far as the entity and
component operations raise it. -/
inductive EcsError where
  | CapacityExceeded
  | UnknownEntity
  | DuplicateComponent
  | ComponentNotPresent
deriving DecidableEq

/-- Modelled from the spec: the EntityRegistry (allocates and recycles entity
identities and owns each entity's signature); its source is missing. The free
pool is a queue of identities, `live` the identities handed out and not yet
destroyed. -/
structure EntityRegistry where
  available : List Entity
  live : Finset Entity
  signatures : Entity → Signature

/-- Modelled from the spec: `create() -> Entity` of the missing EntityRegistry,
"returns a fresh or recycled identity with zero signature; fails with
`CapacityExceeded`" when no identity is left. -/
def EntityRegistry.create (self : EntityRegistry) : Except EcsError (Entity × EntityRegistry) :=
  match self.available with
  | [] => .error .CapacityExceeded
  | e :: rest => .ok (e, { self with available := rest, live := insert e self.live })

/-- Modelled from the spec: `destroy(Entity)` of the missing EntityRegistry,
"clears the entity's signature and returns the identity to the free pool;
fails with `UnknownEntity` if the identity is not currently live". -/
def EntityRegistry.destroy (self : EntityRegistry) (e : Entity) : Except EcsError EntityRegistry :=
  if e ∈ self.live then
    .ok { available := self.available ++ [e],
          live := self.live.erase e,
          signatures := Function.update self.signatures e 0 }
  else .error .UnknownEntity

/-- Modelled from the spec: `setSignatureBit(Entity, ComponentType, bool)` of
the missing EntityRegistry, "mutates one bit; fails with `UnknownEntity` if not
live". -/
def EntityRegistry.setSignatureBit (self : EntityRegistry) (e : Entity) (c : ComponentType)
    (b : Bool) : Except EcsError EntityRegistry :=
  if e ∈ self.live then
    .ok { self with
          signatures := Function.update self.signatures e
            (if b then Signature.set (self.signatures e) c
             else Signature.reset (self.signatures e) c) }
  else .error .UnknownEntity

/-- Modelled from the spec: the EntityComponentFacade, whose source is missing:
the entity registry, for each component type the entities present in its store
(the stored values play no part in system membership and are left out), and the
system manager. -/
structure EntityComponentSystem where
  m_entities : EntityRegistry
  m_components : ComponentType → Finset Entity
  m_systems : SystemManager

/-- Modelled from the spec: `createEntity()` of the missing facade, "delegates
to EntityRegistry only; no system/store involvement". -/
def EntityComponentSystem.createEntity (self : EntityComponentSystem) :
    Except EcsError (Entity × EntityComponentSystem) :=
  match self.m_entities.create with
  | .error err => .error err
  | .ok (e, registry) => .ok (e, { self with m_entities := registry })

/-- Modelled from the spec: `destroyEntity(e)` of the missing facade,
"EntityRegistry.destroy, then ComponentStoreRegistry.onEntityDestroyed, then
SystemRegistry.onEntityDestroyed, in that order; partial failure aborts before
any store/system mutation". -/
def EntityComponentSystem.destroyEntity (self : EntityComponentSystem) (e : Entity) :
    Except EcsError EntityComponentSystem :=
  match self.m_entities.destroy e with
  | .error err => .error err
  | .ok registry =>
    .ok { m_entities := registry,
          m_components := fun c => (self.m_components c).erase e,
          m_systems := self.m_systems.entityDestroyed e }

/-- Modelled from the spec: `addComponent<T>(e, value)` of the missing facade,
"mutate the relevant store, flip the corresponding signature bit in
EntityRegistry, then call `onEntitySignatureChanged(e, newSignature)`"; the
store insertion "fails with `DuplicateComponent` if the entity already holds
`T`". -/
def EntityComponentSystem.addComponent (self : EntityComponentSystem) (e : Entity)
    (c : ComponentType) : Except EcsError EntityComponentSystem :=
  if e ∈ self.m_components c then .error .DuplicateComponent
  else
    match self.m_entities.setSignatureBit e c true with
    | .error err => .error err
    | .ok registry =>
      .ok { m_entities := registry,
            m_components := Function.update self.m_components c (insert e (self.m_components c)),
            m_systems := self.m_systems.entitySignatureChanged e (registry.signatures e) }

/-- Modelled from the spec: `removeComponent<T>(e)` of the missing facade; the
store removal "fails with `ComponentNotPresent` if the entity does not hold
`T`", then the signature bit is cleared and the systems are notified with the
new signature. -/
def EntityComponentSystem.removeComponent (self : EntityComponentSystem) (e : Entity)
    (c : ComponentType) : Except EcsError EntityComponentSystem :=
  if e ∈ self.m_components c then
    match self.m_entities.setSignatureBit e c false with
    | .error err => .error err
    | .ok registry =>
      .ok { m_entities := registry,
            m_components := Function.update self.m_components c ((self.m_components c).erase e),
            m_systems := self.m_systems.entitySignatureChanged e (registry.signatures e) }
  else .error .ComponentNotPresent

/-- The structural mutations of the facade. -/
inductive Mutation where
  | createEntity
  | destroyEntity (e : Entity)
  | addComponent (e : Entity) (c : ComponentType)
  | removeComponent (e : Entity) (c : ComponentType)
deriving DecidableEq

/-- One structural mutation. -/
def EntityComponentSystem.apply (self : EntityComponentSystem) :
    Mutation → Except EcsError EntityComponentSystem
  | .createEntity =>
    match self.createEntity with
    | .error err => .error err
    | .ok (_, next) => .ok next
  | .destroyEntity e => self.destroyEntity e
  | .addComponent e c => self.addComponent e c
  | .removeComponent e c => self.removeComponent e c

/-- A sequence of structural mutations; the first error ends the run (the
specification gives the ECS no recovery path). -/
def EntityComponentSystem.run (self : EntityComponentSystem) :
    List Mutation → Except EcsError EntityComponentSystem
  | [] => .ok self
  | m :: ms =>
    match self.apply m with
    | .error err => .error err
    | .ok next => next.run ms

/-- Modelled from the spec: the state after start-up of the missing facade:
`maxEntities` free identities, no live entity, empty component stores, and the
given systems registered with their required signatures and empty entity
sets. -/
def EntityComponentSystem.init (maxEntities : Nat) (systems : List (TypeName × Signature)) :
    EntityComponentSystem :=
  { m_entities := { available := List.range maxEntities, live := ∅, signatures := fun _ => 0 },
    m_components := fun _ => ∅,
    m_systems :=
      { m_signatures := systems,
        m_systems := systems.map fun p => (p.1, { m_entities := ∅ }) } }

/-- The invariant carried through every run of the facade. -/
structure EntityComponentSystem.Consistent (ecs : EntityComponentSystem) : Prop where
  pool_nodup : ecs.m_entities.available.Nodup
  pool_free : ∀ e ∈ ecs.m_entities.available, e ∉ ecs.m_entities.live
  dead_zero : ∀ e, e ∉ ecs.m_entities.live → ecs.m_entities.signatures e = 0
  members_match : ∀ p ∈ ecs.m_systems.m_systems, ∀ e ∈ p.2.m_entities,
    e ∈ ecs.m_entities.live ∧
      signaturesMatch (ecs.m_entities.signatures e)
        (requiredOf ecs.m_systems.m_signatures p.1) = true
  matching_members : ∀ p ∈ ecs.m_systems.m_systems,
    requiredOf ecs.m_systems.m_signatures p.1 ≠ 0 →
    ∀ e ∈ ecs.m_entities.live,
      signaturesMatch (ecs.m_entities.signatures e)
        (requiredOf ecs.m_systems.m_signatures p.1) = true → e ∈ p.2.m_entities

/-! ## Lemmas about the map subscript -/

theorem subscript_fst (m : List (TypeName × Signature)) (k : TypeName) :
    (subscript m k).1 = requiredOf m k := by
  unfold subscript requiredOf
  cases h : m.lookup k <;> simp

theorem lookup_subscript (m : List (TypeName × Signature)) (k k' : TypeName) :
    (subscript m k).2.lookup k' =
      if k' = k then some (requiredOf m k) else m.lookup k' := by
  unfold subscript requiredOf
  cases h : m.lookup k with
  | none =>
    by_cases hk : k' = k
    · subst hk
      simp [List.lookup_cons]
    · have hb : (k' == k) = false := by simpa using hk
      simp [List.lookup_cons, hb, hk]
  | some v =>
    by_cases hk : k' = k
    · subst hk
      simp [h]
    · simp [hk]

theorem requiredOf_subscript (m : List (TypeName × Signature)) (k k' : TypeName) :
    requiredOf (subscript m k).2 k' = requiredOf m k' := by
  unfold requiredOf
  rw [lookup_subscript]
  by_cases hk : k' = k
  · subst hk
    simp [requiredOf]
  · simp [hk]

theorem subscript_of_stored (m : List (TypeName × Signature)) (k : TypeName)
    (h : m.lookup k ≠ none) : (subscript m k).2 = m := by
  unfold subscript
  cases h' : m.lookup k with
  | none => exact absurd h' h
  | some v => rfl

/-! ## The loop, entry by entry -/

theorem loop_systems (e : Entity) (s : Signature) (l : List (TypeName × System))
    (m : List (TypeName × Signature)) :
    (signatureChangedLoop e s l m).1 =
      l.map fun p => (p.1, resync e s (requiredOf m p.1) p.2) := by
  induction l generalizing m with
  | nil => rfl
  | cons p rest ih =>
    obtain ⟨k, sys⟩ := p
    simp only [signatureChangedLoop, List.map_cons, ih, subscript_fst, resync,
      requiredOf_subscript]

theorem loop_signatures (e : Entity) (s : Signature) (l : List (TypeName × System))
    (m : List (TypeName × Signature)) :
    (signatureChangedLoop e s l m).2 = signaturesAfter l m := by
  induction l generalizing m with
  | nil => rfl
  | cons p rest ih =>
    obtain ⟨k, sys⟩ := p
    simp only [signatureChangedLoop, signaturesAfter, ih]

theorem requiredOf_signaturesAfter (l : List (TypeName × System))
    (m : List (TypeName × Signature)) (k : TypeName) :
    requiredOf (signaturesAfter l m) k = requiredOf m k := by
  induction l generalizing m with
  | nil => rfl
  | cons p rest ih =>
    obtain ⟨k0, sys⟩ := p
    simp only [signaturesAfter, ih, requiredOf_subscript]

theorem lookup_signaturesAfter_of_stored (l : List (TypeName × System))
    (m : List (TypeName × Signature)) (k : TypeName) (R : Signature)
    (h : m.lookup k = some R) : (signaturesAfter l m).lookup k = some R := by
  induction l generalizing m with
  | nil => exact h
  | cons p rest ih =>
    obtain ⟨k0, sys⟩ := p
    simp only [signaturesAfter]
    apply ih
    rw [lookup_subscript]
    by_cases hk : k = k0
    · subst hk
      simp [requiredOf, h]
    · simp [hk, h]

theorem lookup_signaturesAfter_of_key (l : List (TypeName × System))
    (m : List (TypeName × Signature)) (k : TypeName)
    (hk : k ∈ l.map Prod.fst) :
    (signaturesAfter l m).lookup k = some (requiredOf m k) := by
  induction l generalizing m with
  | nil => simp at hk
  | cons p rest ih =>
    obtain ⟨k0, sys⟩ := p
    simp only [signaturesAfter]
    by_cases h0 : k = k0
    · subst h0
      apply lookup_signaturesAfter_of_stored
      rw [lookup_subscript]
      simp
    · have hk' : k ∈ rest.map Prod.fst := by
        simp only [List.map_cons, List.mem_cons] at hk
        rcases hk with hk | hk
        · exact absurd hk h0
        · exact hk
      rw [ih _ hk', requiredOf_subscript]

theorem signaturesAfter_of_all_stored (l : List (TypeName × System))
    (m : List (TypeName × Signature))
    (h : ∀ k ∈ l.map Prod.fst, m.lookup k ≠ none) : signaturesAfter l m = m := by
  induction l generalizing m with
  | nil => rfl
  | cons p rest ih =>
    obtain ⟨k0, sys⟩ := p
    have h0 : m.lookup k0 ≠ none := h k0 (by simp)
    simp only [signaturesAfter, subscript_of_stored m k0 h0]
    apply ih
    intro k hk
    exact h k (by simp only [List.map_cons, List.mem_cons]; exact Or.inr hk)

theorem signaturesAfter_idem (l l' : List (TypeName × System))
    (m : List (TypeName × Signature)) (hl : l'.map Prod.fst = l.map Prod.fst) :
    signaturesAfter l' (signaturesAfter l m) = signaturesAfter l m := by
  apply signaturesAfter_of_all_stored
  intro k hk
  rw [hl] at hk
  rw [lookup_signaturesAfter_of_key l m k hk]
  simp

/-! ## The two notifications as maps over `m_systems` -/

theorem entitySignatureChanged_systems (sm : SystemManager) (e : Entity) (s : Signature) :
    (sm.entitySignatureChanged e s).m_systems =
      sm.m_systems.map fun p => (p.1, resync e s (requiredOf sm.m_signatures p.1) p.2) := by
  simp only [SystemManager.entitySignatureChanged, loop_systems]

theorem entitySignatureChanged_signatures (sm : SystemManager) (e : Entity) (s : Signature) :
    (sm.entitySignatureChanged e s).m_signatures =
      signaturesAfter sm.m_systems sm.m_signatures := by
  simp only [SystemManager.entitySignatureChanged, loop_signatures]

theorem entitySignatureChanged_keys (sm : SystemManager) (e : Entity) (s : Signature) :
    (sm.entitySignatureChanged e s).m_systems.map Prod.fst = sm.m_systems.map Prod.fst := by
  rw [entitySignatureChanged_systems, List.map_map]
  rfl

theorem entityDestroyed_keys (sm : SystemManager) (e : Entity) :
    (sm.entityDestroyed e).m_systems.map Prod.fst = sm.m_systems.map Prod.fst := by
  simp only [SystemManager.entityDestroyed, List.map_map]
  rfl

theorem mem_resync (e e' : Entity) (s R : Signature) (sys : System) :
    e' ∈ (resync e s R sys).m_entities ↔
      (e' = e ∧ signaturesMatch s R = true) ∨ (e' ≠ e ∧ e' ∈ sys.m_entities) := by
  unfold resync
  by_cases h : signaturesMatch s R = true
  · simp only [h, if_true, System.addEntity, Finset.mem_insert]
    by_cases he : e' = e <;> simp [he]
  · simp only [h, if_false, System.removeEntity, Finset.mem_erase]
    by_cases he : e' = e <;> simp [he, h]

theorem System.eq_of_mem (a b : System)
    (h : ∀ x, x ∈ a.m_entities ↔ x ∈ b.m_entities) : a = b := by
  cases a with
  | mk A =>
    cases b with
    | mk B =>
      have hAB : A = B := Finset.ext h
      rw [hAB]

theorem mem_removeEntity (e e' : Entity) (sys : System) :
    e' ∈ (sys.removeEntity e).m_entities ↔ e' ≠ e ∧ e' ∈ sys.m_entities := by
  simp [System.removeEntity, Finset.mem_erase]

theorem resync_resync (e : Entity) (s1 s2 R : Signature) (sys : System) :
    resync e s2 R (resync e s1 R sys) = resync e s2 R sys := by
  apply System.eq_of_mem
  intro x
  simp only [mem_resync]
  tauto

theorem removeEntity_resync (e : Entity) (s R : Signature) (sys : System) :
    (resync e s R sys).removeEntity e = sys.removeEntity e := by
  apply System.eq_of_mem
  intro x
  simp only [mem_removeEntity, mem_resync]
  tauto

theorem signaturesMatch_iff (s R : Signature) :
    signaturesMatch s R = true ↔ s &&& R = R := by
  simp [signaturesMatch]

theorem mem_entitySignatureChanged_systems (sm : SystemManager) (e : Entity) (s : Signature)
    (q : TypeName × System) :
    q ∈ (sm.entitySignatureChanged e s).m_systems ↔
      ∃ p ∈ sm.m_systems, q = (p.1, resync e s (requiredOf sm.m_signatures p.1) p.2) := by
  rw [entitySignatureChanged_systems, List.mem_map]
  constructor
  · rintro ⟨p, hp, rfl⟩
    exact ⟨p, hp, rfl⟩
  · rintro ⟨p, hp, rfl⟩
    exact ⟨p, hp, rfl⟩

theorem requiredOf_of_stored (m : List (TypeName × Signature)) (k : TypeName) (R : Signature)
    (h : m.lookup k = some R) : requiredOf m k = R := by
  simp [requiredOf, h]

theorem SystemManager.eq_of_fields (a b : SystemManager)
    (hsig : a.m_signatures = b.m_signatures) (hsys : a.m_systems = b.m_systems) : a = b := by
  cases a
  cases b
  simp only at hsig hsys
  rw [hsig, hsys]

/-! ## The membership contract of the two notifications -/

/-- C1: after `entitySignatureChanged(e, s)` the registered systems are the
same, and for every registered system whose required signature `R` is stored,
`e` is in the system's entity set if and only if `(s & R) == R`. -/
theorem entitySignatureChanged_membership (sm : SystemManager) (e : Entity) (s : Signature)
    (name : TypeName) (sys : System) (R : Signature)
    (hreg : (name, sys) ∈ (sm.entitySignatureChanged e s).m_systems)
    (hR : sm.m_signatures.lookup name = some R) :
    (sm.entitySignatureChanged e s).m_systems.map Prod.fst = sm.m_systems.map Prod.fst ∧
      (e ∈ sys.m_entities ↔ s &&& R = R) := by
  refine ⟨entitySignatureChanged_keys sm e s, ?_⟩
  obtain ⟨p, _, hq⟩ := (mem_entitySignatureChanged_systems sm e s _).1 hreg
  simp only [Prod.mk.injEq] at hq
  obtain ⟨hname, hsys⟩ := hq
  subst hname
  rw [hsys, mem_resync, requiredOf_of_stored _ _ _ hR, signaturesMatch_iff]
  simp

/-- C1 at a concrete state: one system requiring bits 0 and 1, notified for
entity 7 with signature `0b111`. -/
theorem entitySignatureChanged_membership_witness :
    (7 ∈ (System.mk {7}).m_entities ↔ (7 : Signature) &&& 3 = 3) :=
  (entitySignatureChanged_membership
    { m_signatures := [("MeshRenderSystem", 3)],
      m_systems := [("MeshRenderSystem", { m_entities := ∅ })] }
    7 7 "MeshRenderSystem" { m_entities := {7} } 3 (by decide) (by decide)).2

/-- C3: `entityDestroyed(e)` is a total function (it cannot fail), it keeps the
registered systems, and afterwards `e` is in the entity set of no registered
system, whatever the sets and the required signatures were. -/
theorem entityDestroyed_absent (sm : SystemManager) (e : Entity) :
    (sm.entityDestroyed e).m_systems.map Prod.fst = sm.m_systems.map Prod.fst ∧
      ∀ p, p ∈ (sm.entityDestroyed e).m_systems → e ∉ p.2.m_entities := by
  refine ⟨entityDestroyed_keys sm e, ?_⟩
  intro p hp
  simp only [SystemManager.entityDestroyed, List.mem_map] at hp
  obtain ⟨q, _, rfl⟩ := hp
  simp [System.removeEntity]

/-- C3 at a concrete state: entity 4 is a member of one system and not of the
other. -/
theorem entityDestroyed_absent_witness :
    (4 : Entity) ∉ (System.mk {9}).m_entities :=
  (entityDestroyed_absent
    { m_signatures := [("A", 1)],
      m_systems := [("A", { m_entities := {4, 9} }), ("B", { m_entities := ∅ })] }
    4).2 ("A", { m_entities := {9} }) (by decide)

theorem entitySignatureChanged_overwrite (sm : SystemManager) (e : Entity)
    (s1 s2 : Signature) :
    (sm.entitySignatureChanged e s1).entitySignatureChanged e s2 =
      sm.entitySignatureChanged e s2 := by
  apply SystemManager.eq_of_fields
  · rw [entitySignatureChanged_signatures (sm.entitySignatureChanged e s1),
      entitySignatureChanged_signatures, entitySignatureChanged_signatures]
    exact signaturesAfter_idem _ _ _ (entitySignatureChanged_keys sm e s1)
  · rw [entitySignatureChanged_systems (sm.entitySignatureChanged e s1),
      entitySignatureChanged_signatures, entitySignatureChanged_systems,
      entitySignatureChanged_systems, List.map_map]
    apply List.map_congr_left
    intro p _
    simp only [Function.comp, requiredOf_signaturesAfter, resync_resync]

/-- C4: notifying the same signature twice in a row leaves the system manager,
and so every system's entity set, exactly as after the first notification. -/
theorem entitySignatureChanged_idempotent (sm : SystemManager) (e : Entity) (s : Signature) :
    (sm.entitySignatureChanged e s).entitySignatureChanged e s =
      sm.entitySignatureChanged e s :=
  entitySignatureChanged_overwrite sm e s s

theorem land_eq_iff_testBit (s R : Nat) :
    s &&& R = R ↔ ∀ i, R.testBit i = true → s.testBit i = true := by
  constructor
  · intro h i hi
    have hb : (s &&& R).testBit i = true := by rw [h]; exact hi
    rw [Nat.testBit_and] at hb
    simp only [Bool.and_eq_true] at hb
    exact hb.1
  · intro h
    apply Nat.eq_of_testBit_eq
    intro i
    rw [Nat.testBit_and]
    cases hR : R.testBit i with
    | false => simp
    | true => simp [h i hR]

theorem testBit_false_of_width (w R i : Nat) (hR : R < 2 ^ w) (hi : w ≤ i) :
    R.testBit i = false := by
  apply Nat.testBit_lt_two_pow
  exact lt_of_lt_of_le hR (Nat.pow_le_pow_right (by decide) hi)

/-- C6: for a required signature `R` of width `w` and any signature `s` (of
that width or not), the match test `(s & R) == R` succeeds exactly when every
bit below the width that is set in `R` is set in `s`; every signature matches
the all-zero required signature, and a signature matches itself. -/
theorem signaturesMatch_superset (w : Nat) (s R : Signature) (hR : R < 2 ^ w) :
    (signaturesMatch s R = true ↔ ∀ i, i < w → R.testBit i = true → s.testBit i = true) ∧
      signaturesMatch s 0 = true ∧ signaturesMatch R R = true := by
  refine ⟨?_, ?_, ?_⟩
  · rw [signaturesMatch_iff, land_eq_iff_testBit]
    constructor
    · intro h i _ hi
      exact h i hi
    · intro h i hi
      by_cases hw : i < w
      · exact h i hw hi
      · rw [testBit_false_of_width w R i hR (Nat.le_of_not_lt hw)] at hi
        exact absurd hi (by decide)
  · simp [signaturesMatch]
  · simp [signaturesMatch]

/-- C6 at width 32 with entity signature `0b0111` and required signature
`0b0101`. -/
theorem signaturesMatch_superset_witness :
    (5 : Signature) < 2 ^ 32 ∧
      ((signaturesMatch 7 5 = true ↔
          ∀ i, i < 32 → Nat.testBit 5 i = true → Nat.testBit 7 i = true) ∧
        signaturesMatch 7 0 = true ∧ signaturesMatch 5 5 = true) :=
  ⟨by decide, signaturesMatch_superset 32 7 5 (by decide)⟩

/-- C8: a notification about `e` (signature change or destruction) keeps the
registered systems in place, keeps the membership of every other entity `e'`
in each of them, and keeps every required signature that was stored. -/
theorem notifications_frame (sm : SystemManager) (e e' : Entity) (s : Signature)
    (hne : e' ≠ e) :
    List.Forall₂ (fun p q => q.1 = p.1 ∧ (e' ∈ q.2.m_entities ↔ e' ∈ p.2.m_entities))
        sm.m_systems (sm.entitySignatureChanged e s).m_systems ∧
      List.Forall₂ (fun p q => q.1 = p.1 ∧ (e' ∈ q.2.m_entities ↔ e' ∈ p.2.m_entities))
        sm.m_systems (sm.entityDestroyed e).m_systems ∧
      (∀ name R, sm.m_signatures.lookup name = some R →
        (sm.entitySignatureChanged e s).m_signatures.lookup name = some R) ∧
      (sm.entityDestroyed e).m_signatures = sm.m_signatures := by
  refine ⟨?_, ?_, ?_, rfl⟩
  · rw [entitySignatureChanged_systems, List.forall₂_map_right_iff]
    apply List.forall₂_same.2
    intro p _
    refine ⟨rfl, ?_⟩
    rw [mem_resync]
    simp [hne]
  · simp only [SystemManager.entityDestroyed]
    rw [List.forall₂_map_right_iff]
    apply List.forall₂_same.2
    intro p _
    refine ⟨rfl, ?_⟩
    rw [mem_removeEntity]
    simp [hne]
  · intro name R h
    rw [entitySignatureChanged_signatures]
    exact lookup_signaturesAfter_of_stored _ _ _ _ h

/-- C8 at a concrete state: entity 2 is notified, entity 5 is looked at. -/
theorem notifications_frame_witness :
    (5 : Entity) ≠ 2 ∧
      List.Forall₂ (fun p q => q.1 = p.1 ∧ ((5 : Entity) ∈ q.2.m_entities ↔ 5 ∈ p.2.m_entities))
        [("A", System.mk {2, 5}), ("B", System.mk {5})]
        (SystemManager.entitySignatureChanged
          { m_signatures := [("A", 1)],
            m_systems := [("A", { m_entities := {2, 5} }), ("B", { m_entities := {5} })] }
          2 6).m_systems :=
  ⟨by decide,
   (notifications_frame
      { m_signatures := [("A", 1)],
        m_systems := [("A", { m_entities := {2, 5} }), ("B", { m_entities := {5} })] }
      2 5 6 (by decide)).1⟩

/-- C9: the last notification wins. A signature notification followed by a
second one for the same entity leaves the system manager as the second one
alone does, and a signature notification followed by the destruction
notification leaves every system's entity set as the destruction alone does. -/
theorem last_notification_wins (sm : SystemManager) (e : Entity) (s1 s2 : Signature) :
    (sm.entitySignatureChanged e s1).entitySignatureChanged e s2 =
        sm.entitySignatureChanged e s2 ∧
      ((sm.entitySignatureChanged e s1).entityDestroyed e).m_systems =
        (sm.entityDestroyed e).m_systems := by
  constructor
  · exact entitySignatureChanged_overwrite sm e s1 s2
  · simp only [SystemManager.entityDestroyed]
    rw [entitySignatureChanged_systems, List.map_map]
    apply List.map_congr_left
    intro p _
    simp only [Function.comp, removeEntity_resync]

/-- C10: a registered system with no stored required signature is treated as
requiring nothing: after `entitySignatureChanged(e, s)`, for any `s`, every
entry registered under that name has `e` in its entity set (the entry itself
has become the old set with `e` inserted), and an all-zero signature is now
stored under the name. -/
theorem unset_signature_defaults_to_zero (sm : SystemManager) (e : Entity) (s : Signature)
    (name : TypeName) (sys : System)
    (hreg : (name, sys) ∈ sm.m_systems)
    (hnone : sm.m_signatures.lookup name = none) :
    (name, sys.addEntity e) ∈ (sm.entitySignatureChanged e s).m_systems ∧
      (∀ q, q ∈ (sm.entitySignatureChanged e s).m_systems → q.1 = name →
        e ∈ q.2.m_entities) ∧
      (sm.entitySignatureChanged e s).m_signatures.lookup name = some 0 := by
  have hzero : requiredOf sm.m_signatures name = 0 := by simp [requiredOf, hnone]
  have hmatch : signaturesMatch s 0 = true := by simp [signaturesMatch]
  refine ⟨?_, ?_, ?_⟩
  · rw [mem_entitySignatureChanged_systems]
    refine ⟨(name, sys), hreg, ?_⟩
    simp [resync, hzero, hmatch]
  · intro q hq hname
    obtain ⟨p, _, rfl⟩ := (mem_entitySignatureChanged_systems sm e s q).1 hq
    simp only at hname
    rw [mem_resync, hname, hzero]
    exact Or.inl ⟨rfl, hmatch⟩
  · rw [entitySignatureChanged_signatures]
    have hk : name ∈ sm.m_systems.map Prod.fst := List.mem_map.2 ⟨(name, sys), hreg, rfl⟩
    rw [lookup_signaturesAfter_of_key _ _ _ hk, hzero]

/-- C10 at a concrete state: `LightRenderSystem` is registered without a
signature and the notification carries the zero signature. -/
theorem unset_signature_defaults_to_zero_witness :
    ("LightRenderSystem", System.addEntity { m_entities := ∅ } 3) ∈
        (SystemManager.entitySignatureChanged
          { m_signatures := [("MeshRenderSystem", 3)],
            m_systems := [("MeshRenderSystem", { m_entities := ∅ }),
              ("LightRenderSystem", { m_entities := ∅ })] } 3 0).m_systems ∧
      (SystemManager.entitySignatureChanged
          { m_signatures := [("MeshRenderSystem", 3)],
            m_systems := [("MeshRenderSystem", { m_entities := ∅ }),
              ("LightRenderSystem", { m_entities := ∅ })] } 3 0).m_signatures.lookup
        "LightRenderSystem" = some 0 :=
  have h := unset_signature_defaults_to_zero
    { m_signatures := [("MeshRenderSystem", 3)],
      m_systems := [("MeshRenderSystem", { m_entities := ∅ }),
        ("LightRenderSystem", { m_entities := ∅ })] }
    3 0 "LightRenderSystem" { m_entities := ∅ } (by decide) (by decide)
  ⟨h.1, h.2.2⟩


/-! ## Bit-level facts about `set` and `reset` -/

theorem testBit_set (s : Signature) (c i : Nat) :
    (Signature.set s c).testBit i = (s.testBit i || decide (c = i)) := by
  simp only [Signature.set, Nat.testBit_or, Nat.one_shiftLeft, Nat.testBit_two_pow]

theorem testBit_reset (s : Signature) (c i : Nat) :
    (Signature.reset s c).testBit i = (s.testBit i && !decide (c = i)) := by
  simp only [Signature.reset, Nat.testBit_xor, Nat.testBit_and, Nat.one_shiftLeft,
    Nat.testBit_two_pow]
  cases s.testBit i <;> cases decide (c = i) <;> rfl

theorem signaturesMatch_set (s R : Signature) (c : ComponentType)
    (h : signaturesMatch s R = true) : signaturesMatch (Signature.set s c) R = true := by
  rw [signaturesMatch_iff, land_eq_iff_testBit] at h ⊢
  intro i hi
  rw [testBit_set, h i hi]
  rfl

theorem signaturesMatch_of_reset (s R : Signature) (c : ComponentType)
    (h : signaturesMatch (Signature.reset s c) R = true) : signaturesMatch s R = true := by
  rw [signaturesMatch_iff, land_eq_iff_testBit] at h ⊢
  intro i hi
  have h1 := h i hi
  rw [testBit_reset] at h1
  simp only [Bool.and_eq_true] at h1
  exact h1.1

theorem lookup_map_snd {β γ : Type} (f : TypeName → β → γ) (l : List (TypeName × β))
    (k : TypeName) :
    (l.map fun p => (p.1, f p.1 p.2)).lookup k = (l.lookup k).map (f k) := by
  induction l with
  | nil => rfl
  | cons p rest ih =>
    obtain ⟨k0, v⟩ := p
    by_cases hk : k = k0
    · subst hk
      simp [List.lookup_cons]
    · have hb : (k == k0) = false := by simpa using hk
      simp only [List.map_cons, List.lookup_cons, hb, ih]

theorem lookup_entitySignatureChanged (sm : SystemManager) (e : Entity) (s : Signature)
    (name : TypeName) :
    (sm.entitySignatureChanged e s).m_systems.lookup name =
      (sm.m_systems.lookup name).map (resync e s (requiredOf sm.m_signatures name)) := by
  rw [entitySignatureChanged_systems]
  exact lookup_map_snd (fun k sys => resync e s (requiredOf sm.m_signatures k) sys) _ name

theorem requiredOf_entitySignatureChanged (sm : SystemManager) (e : Entity) (s : Signature)
    (name : TypeName) :
    requiredOf (sm.entitySignatureChanged e s).m_signatures name =
      requiredOf sm.m_signatures name := by
  rw [entitySignatureChanged_signatures, requiredOf_signaturesAfter]

/-- C7: eligibility is monotone in the signature. Setting one more bit in the
notified signature keeps, in every system, any membership of `e` that the
notification with the smaller signature gives; clearing one bit keeps any
non-membership. Both hold whether the two notifications are compared from the
same state or issued one after the other. -/
theorem eligibility_monotone (sm : SystemManager) (e : Entity) (s : Signature)
    (c : ComponentType) :
    (List.Forall₂ (fun p q => q.1 = p.1 ∧ (e ∈ p.2.m_entities → e ∈ q.2.m_entities))
        (sm.entitySignatureChanged e s).m_systems
        (sm.entitySignatureChanged e (Signature.set s c)).m_systems ∧
      List.Forall₂ (fun p q => q.1 = p.1 ∧ (e ∉ p.2.m_entities → e ∉ q.2.m_entities))
        (sm.entitySignatureChanged e s).m_systems
        (sm.entitySignatureChanged e (Signature.reset s c)).m_systems) ∧
    (List.Forall₂ (fun p q => q.1 = p.1 ∧ (e ∈ p.2.m_entities → e ∈ q.2.m_entities))
        (sm.entitySignatureChanged e s).m_systems
        ((sm.entitySignatureChanged e s).entitySignatureChanged e
          (Signature.set s c)).m_systems ∧
      List.Forall₂ (fun p q => q.1 = p.1 ∧ (e ∉ p.2.m_entities → e ∉ q.2.m_entities))
        (sm.entitySignatureChanged e s).m_systems
        ((sm.entitySignatureChanged e s).entitySignatureChanged e
          (Signature.reset s c)).m_systems) := by
  have hadd : List.Forall₂ (fun p q => q.1 = p.1 ∧ (e ∈ p.2.m_entities → e ∈ q.2.m_entities))
      (sm.entitySignatureChanged e s).m_systems
      (sm.entitySignatureChanged e (Signature.set s c)).m_systems := by
    rw [entitySignatureChanged_systems, entitySignatureChanged_systems,
      List.forall₂_map_left_iff, List.forall₂_map_right_iff]
    apply List.forall₂_same.2
    intro p _
    refine ⟨rfl, ?_⟩
    rw [mem_resync, mem_resync]
    rintro (⟨_, hm⟩ | ⟨hne, _⟩)
    · exact Or.inl ⟨rfl, signaturesMatch_set _ _ c hm⟩
    · exact absurd rfl hne
  have hrem : List.Forall₂ (fun p q => q.1 = p.1 ∧ (e ∉ p.2.m_entities → e ∉ q.2.m_entities))
      (sm.entitySignatureChanged e s).m_systems
      (sm.entitySignatureChanged e (Signature.reset s c)).m_systems := by
    rw [entitySignatureChanged_systems, entitySignatureChanged_systems,
      List.forall₂_map_left_iff, List.forall₂_map_right_iff]
    apply List.forall₂_same.2
    intro p _
    refine ⟨rfl, ?_⟩
    rw [mem_resync, mem_resync]
    intro hnot hin
    apply hnot
    rcases hin with ⟨_, hm⟩ | ⟨hne, _⟩
    · exact Or.inl ⟨rfl, signaturesMatch_of_reset _ _ c hm⟩
    · exact absurd rfl hne
  refine ⟨⟨hadd, hrem⟩, ?_, ?_⟩
  · rw [entitySignatureChanged_overwrite]
    exact hadd
  · rw [entitySignatureChanged_overwrite]
    exact hrem

/-- C5: the scenario of the specification. A system registered under `name`
requires the two distinct component types `transform` and `mesh` and tracks no
entity. Notifying `e1` with signature `{transform}` leaves its set empty; then
with `{transform, mesh}` makes it `{e1}`; then with `transform` cleared again
makes it empty. -/
theorem scenario_transform_mesh (sm : SystemManager) (name : TypeName) (e1 : Entity)
    (transform mesh : ComponentType) (hdistinct : transform ≠ mesh)
    (hempty : sm.m_systems.lookup name = some { m_entities := ∅ })
    (hrequired : sm.m_signatures.lookup name =
      some (Signature.set (Signature.set 0 transform) mesh)) :
    (sm.entitySignatureChanged e1 (Signature.set 0 transform)).m_systems.lookup name =
        some { m_entities := ∅ } ∧
      ((sm.entitySignatureChanged e1 (Signature.set 0 transform)).entitySignatureChanged e1
          (Signature.set (Signature.set 0 transform) mesh)).m_systems.lookup name =
        some { m_entities := {e1} } ∧
      (((sm.entitySignatureChanged e1 (Signature.set 0 transform)).entitySignatureChanged e1
          (Signature.set (Signature.set 0 transform) mesh)).entitySignatureChanged e1
          (Signature.reset (Signature.set (Signature.set 0 transform) mesh)
            transform)).m_systems.lookup name =
        some { m_entities := ∅ } := by
  have hR := requiredOf_of_stored _ _ _ hrequired
  have h1 : signaturesMatch (Signature.set 0 transform)
      (Signature.set (Signature.set 0 transform) mesh) = false := by
    rw [Bool.eq_false_iff]
    intro h
    rw [signaturesMatch_iff, land_eq_iff_testBit] at h
    have hb := h mesh (by simp [testBit_set])
    simp [testBit_set, hdistinct] at hb
  have h2 : signaturesMatch (Signature.set (Signature.set 0 transform) mesh)
      (Signature.set (Signature.set 0 transform) mesh) = true := by
    simp [signaturesMatch]
  have h3 : signaturesMatch
      (Signature.reset (Signature.set (Signature.set 0 transform) mesh) transform)
      (Signature.set (Signature.set 0 transform) mesh) = false := by
    rw [Bool.eq_false_iff]
    intro h
    rw [signaturesMatch_iff, land_eq_iff_testBit] at h
    have hb := h transform (by simp [testBit_set])
    simp [testBit_reset] at hb
  refine ⟨?_, ?_, ?_⟩
  · simp only [lookup_entitySignatureChanged, hempty, hR]
    simp [resync, h1, System.removeEntity]
  · simp only [lookup_entitySignatureChanged, requiredOf_entitySignatureChanged, hempty, hR]
    simp [resync, h1, h2, System.removeEntity, System.addEntity]
  · simp only [lookup_entitySignatureChanged, requiredOf_entitySignatureChanged, hempty, hR]
    simp [resync, h1, h2, h3, System.removeEntity, System.addEntity]

/-- C5 with `Transform` as component type 0, `Mesh` as component type 3 (the
order of registration in `main.cpp`), a second system present, and entity 1. -/
theorem scenario_transform_mesh_witness :
    (((SystemManager.entitySignatureChanged
        { m_signatures := [("SkyboxRenderSystem", 16), ("R", 9)],
          m_systems := [("SkyboxRenderSystem", { m_entities := {0} }),
            ("R", { m_entities := ∅ })] }
        1 (Signature.set 0 0)).entitySignatureChanged 1
          (Signature.set (Signature.set 0 0) 3)).m_systems.lookup "R" =
      some { m_entities := {1} }) :=
  (scenario_transform_mesh
    { m_signatures := [("SkyboxRenderSystem", 16), ("R", 9)],
      m_systems := [("SkyboxRenderSystem", { m_entities := {0} }),
        ("R", { m_entities := ∅ })] }
    "R" 1 0 3 (by decide) (by decide) (by decide)).2.1


/-! ## The membership invariant over runs of the facade -/

theorem signaturesMatch_zero_left (R : Signature) (hR : R ≠ 0) :
    signaturesMatch 0 R = false := by
  rw [Bool.eq_false_iff]
  intro h
  rw [signaturesMatch_iff] at h
  apply hR
  rw [← h]
  simp

theorem consistent_init (maxEntities : Nat) (systems : List (TypeName × Signature)) :
    (EntityComponentSystem.init maxEntities systems).Consistent where
  pool_nodup := List.nodup_range maxEntities
  pool_free := by
    intro e _
    simp [EntityComponentSystem.init]
  dead_zero := by
    intro e _
    rfl
  members_match := by
    intro p hp e he
    simp only [EntityComponentSystem.init, List.mem_map] at hp
    obtain ⟨q, _, rfl⟩ := hp
    simp at he
  matching_members := by
    intro p _ _ e he
    simp [EntityComponentSystem.init] at he

theorem consistent_createEntity (ecs next : EntityComponentSystem) (e : Entity)
    (hc : ecs.Consistent) (h : ecs.createEntity = .ok (e, next)) : next.Consistent := by
  unfold EntityComponentSystem.createEntity EntityRegistry.create at h
  cases hav : ecs.m_entities.available with
  | nil =>
    rw [hav] at h
    simp at h
  | cons e0 rest =>
    rw [hav] at h
    simp only [Except.ok.injEq, Prod.mk.injEq] at h
    obtain ⟨he, hnext⟩ := h
    subst he
    subst hnext
    have hnd := hc.pool_nodup
    rw [hav] at hnd
    have hfree : e0 ∉ ecs.m_entities.live := hc.pool_free e0 (by rw [hav]; simp)
    have hzero : ecs.m_entities.signatures e0 = 0 := hc.dead_zero e0 hfree
    refine ⟨?_, ?_, ?_, ?_, ?_⟩
    · exact (List.nodup_cons.1 hnd).2
    · intro x hx
      simp only [Finset.mem_insert, not_or]
      refine ⟨?_, hc.pool_free x (by rw [hav]; exact List.mem_cons_of_mem _ hx)⟩
      intro hxe
      subst hxe
      exact (List.nodup_cons.1 hnd).1 hx
    · intro x hx
      simp only [Finset.mem_insert, not_or] at hx
      exact hc.dead_zero x hx.2
    · intro p hp x hx
      obtain ⟨hl, hm⟩ := hc.members_match p hp x hx
      exact ⟨Finset.mem_insert_of_mem hl, hm⟩
    · intro p hp hR x hx hm
      simp only [Finset.mem_insert] at hx
      rcases hx with hx | hx
      · subst hx
        simp only at hm
        rw [hzero, signaturesMatch_zero_left _ hR] at hm
        exact absurd hm (by decide)
      · exact hc.matching_members p hp hR x hx hm

theorem consistent_destroyEntity (ecs next : EntityComponentSystem) (e : Entity)
    (hc : ecs.Consistent) (h : ecs.destroyEntity e = .ok next) : next.Consistent := by
  unfold EntityComponentSystem.destroyEntity EntityRegistry.destroy at h
  by_cases hlive : e ∈ ecs.m_entities.live
  · simp only [hlive, if_true, Except.ok.injEq] at h
    subst h
    have hnotpool : e ∉ ecs.m_entities.available := fun hin => hc.pool_free e hin hlive
    refine ⟨?_, ?_, ?_, ?_, ?_⟩
    · simp only
      rw [List.nodup_append]
      refine ⟨hc.pool_nodup, List.nodup_singleton e, ?_⟩
      intro x hx hx'
      simp only [List.mem_singleton] at hx'
      subst hx'
      exact hnotpool hx
    · intro x hx
      simp only [List.mem_append, List.mem_singleton] at hx
      simp only [Finset.mem_erase, not_and]
      intro hne
      rcases hx with hx | hx
      · exact hc.pool_free x hx
      · exact absurd hx hne
    · intro x hx
      simp only [Finset.mem_erase, not_and] at hx
      by_cases hxe : x = e
      · subst hxe
        simp
      · simp only [Function.update_noteq hxe]
        exact hc.dead_zero x (hx hxe)
    · intro p hp x hx
      simp only [SystemManager.entityDestroyed, List.mem_map] at hp
      obtain ⟨q, hq, rfl⟩ := hp
      rw [mem_removeEntity] at hx
      obtain ⟨hl, hm⟩ := hc.members_match q hq x hx.2
      refine ⟨Finset.mem_erase.2 ⟨hx.1, hl⟩, ?_⟩
      simp only [Function.update_noteq hx.1]
      exact hm
    · intro p hp hR x hx hm
      simp only [SystemManager.entityDestroyed, List.mem_map] at hp
      obtain ⟨q, hq, rfl⟩ := hp
      simp only [Finset.mem_erase] at hx
      rw [mem_removeEntity]
      refine ⟨hx.1, hc.matching_members q hq hR x hx.2 ?_⟩
      simp only [Function.update_noteq hx.1] at hm
      exact hm
  · simp [hlive] at h

theorem setSignatureBit_ok (reg reg1 : EntityRegistry) (e : Entity) (c : ComponentType)
    (b : Bool) (h : reg.setSignatureBit e c b = .ok reg1) :
    e ∈ reg.live ∧ reg1.available = reg.available ∧ reg1.live = reg.live ∧
      ∀ x, x ≠ e → reg1.signatures x = reg.signatures x := by
  unfold EntityRegistry.setSignatureBit at h
  by_cases hlive : e ∈ reg.live
  · simp only [hlive, if_true, Except.ok.injEq] at h
    subst h
    refine ⟨hlive, rfl, rfl, ?_⟩
    intro x hx
    simp only [Function.update_noteq hx]
  · simp [hlive] at h

theorem consistent_notify (ecs : EntityComponentSystem) (reg1 : EntityRegistry)
    (stores : ComponentType → Finset Entity) (e : Entity)
    (hc : ecs.Consistent) (hlive : e ∈ ecs.m_entities.live)
    (hav : reg1.available = ecs.m_entities.available)
    (hl : reg1.live = ecs.m_entities.live)
    (hsig : ∀ x, x ≠ e → reg1.signatures x = ecs.m_entities.signatures x) :
    EntityComponentSystem.Consistent
      { m_entities := reg1,
        m_components := stores,
        m_systems := ecs.m_systems.entitySignatureChanged e (reg1.signatures e) } := by
  refine ⟨?_, ?_, ?_, ?_, ?_⟩
  · simp only [hav]
    exact hc.pool_nodup
  · intro x hx
    simp only [hav, hl] at hx ⊢
    exact hc.pool_free x hx
  · intro x hx
    simp only [hl] at hx
    have hne : x ≠ e := fun hxe => hx (hxe ▸ hlive)
    simp only [hsig x hne]
    exact hc.dead_zero x hx
  · intro p hp x hx
    simp only at hp
    obtain ⟨q, hq, rfl⟩ := (mem_entitySignatureChanged_systems _ _ _ _).1 hp
    simp only [requiredOf_entitySignatureChanged, hl]
    rw [mem_resync] at hx
    rcases hx with ⟨hxe, hm⟩ | ⟨hne, hx⟩
    · subst hxe
      exact ⟨hlive, hm⟩
    · obtain ⟨hl1, hm⟩ := hc.members_match q hq x hx
      rw [hsig x hne]
      exact ⟨hl1, hm⟩
  · intro p hp hR x hx hm
    simp only at hp
    obtain ⟨q, hq, rfl⟩ := (mem_entitySignatureChanged_systems _ _ _ _).1 hp
    simp only [requiredOf_entitySignatureChanged, hl] at hR hx hm
    rw [mem_resync]
    by_cases hxe : x = e
    · subst hxe
      exact Or.inl ⟨rfl, hm⟩
    · rw [hsig x hxe] at hm
      exact Or.inr ⟨hxe, hc.matching_members q hq hR x hx hm⟩

theorem consistent_addComponent (ecs next : EntityComponentSystem) (e : Entity)
    (c : ComponentType) (hc : ecs.Consistent) (h : ecs.addComponent e c = .ok next) :
    next.Consistent := by
  unfold EntityComponentSystem.addComponent at h
  by_cases hin : e ∈ ecs.m_components c
  · simp [hin] at h
  · simp only [hin, if_false] at h
    cases hset : ecs.m_entities.setSignatureBit e c true with
    | error err =>
      rw [hset] at h
      simp at h
    | ok reg1 =>
      rw [hset] at h
      simp only [Except.ok.injEq] at h
      subst h
      obtain ⟨hlive, hav, hl, hsig⟩ := setSignatureBit_ok _ _ _ _ _ hset
      exact consistent_notify ecs reg1 _ e hc hlive hav hl hsig

theorem consistent_removeComponent (ecs next : EntityComponentSystem) (e : Entity)
    (c : ComponentType) (hc : ecs.Consistent) (h : ecs.removeComponent e c = .ok next) :
    next.Consistent := by
  unfold EntityComponentSystem.removeComponent at h
  by_cases hin : e ∈ ecs.m_components c
  · simp only [hin, if_true] at h
    cases hset : ecs.m_entities.setSignatureBit e c false with
    | error err =>
      rw [hset] at h
      simp at h
    | ok reg1 =>
      rw [hset] at h
      simp only [Except.ok.injEq] at h
      subst h
      obtain ⟨hlive, hav, hl, hsig⟩ := setSignatureBit_ok _ _ _ _ _ hset
      exact consistent_notify ecs reg1 _ e hc hlive hav hl hsig
  · simp [hin] at h

theorem consistent_apply (ecs next : EntityComponentSystem) (m : Mutation)
    (hc : ecs.Consistent) (h : ecs.apply m = .ok next) : next.Consistent := by
  cases m with
  | createEntity =>
    simp only [EntityComponentSystem.apply] at h
    cases hcreate : ecs.createEntity with
    | error err =>
      rw [hcreate] at h
      simp at h
    | ok r =>
      obtain ⟨e, next1⟩ := r
      rw [hcreate] at h
      simp only [Except.ok.injEq] at h
      subst h
      exact consistent_createEntity ecs next1 e hc hcreate
  | destroyEntity e => exact consistent_destroyEntity ecs next e hc h
  | addComponent e c => exact consistent_addComponent ecs next e c hc h
  | removeComponent e c => exact consistent_removeComponent ecs next e c hc h

theorem consistent_run (ms : List Mutation) (ecs final : EntityComponentSystem)
    (hc : ecs.Consistent) (h : ecs.run ms = .ok final) : final.Consistent := by
  induction ms generalizing ecs with
  | nil =>
    simp only [EntityComponentSystem.run, Except.ok.injEq] at h
    subst h
    exact hc
  | cons m rest ih =>
    simp only [EntityComponentSystem.run] at h
    cases happly : ecs.apply m with
    | error err =>
      rw [happly] at h
      simp at h
    | ok next =>
      rw [happly] at h
      exact ih next (consistent_apply ecs next m hc happly) h


/-- C2, as the code has it: start from the registered systems with their
required signatures and no entity, and run any sequence of structural
mutations that the facade accepts. Then for every registered system with
stored required signature `R`: every member of its entity set is a live entity
whose signature satisfies `(signature & R) == R`; and when `R` is not the
all-zero signature, a live entity is a member if and only if its signature
satisfies `(signature & R) == R`. -/
theorem membership_invariant (maxEntities : Nat) (systems : List (TypeName × Signature))
    (ms : List Mutation) (final : EntityComponentSystem)
    (hrun : (EntityComponentSystem.init maxEntities systems).run ms = .ok final)
    (name : TypeName) (sys : System) (R : Signature)
    (hreg : (name, sys) ∈ final.m_systems.m_systems)
    (hR : final.m_systems.m_signatures.lookup name = some R) :
    (∀ e, e ∈ sys.m_entities →
        e ∈ final.m_entities.live ∧ final.m_entities.signatures e &&& R = R) ∧
      (R ≠ 0 → ∀ e, e ∈ final.m_entities.live →
        (e ∈ sys.m_entities ↔ final.m_entities.signatures e &&& R = R)) := by
  have hc := consistent_run ms _ final (consistent_init maxEntities systems) hrun
  have hreq : requiredOf final.m_systems.m_signatures name = R := requiredOf_of_stored _ _ _ hR
  have hmem : ∀ e, e ∈ sys.m_entities →
      e ∈ final.m_entities.live ∧ final.m_entities.signatures e &&& R = R := by
    intro e he
    obtain ⟨hl, hm⟩ := hc.members_match (name, sys) hreg e he
    simp only [hreq, signaturesMatch_iff] at hm
    exact ⟨hl, hm⟩
  refine ⟨hmem, ?_⟩
  intro hne e hl
  constructor
  · intro he
    exact (hmem e he).2
  · intro hm
    have h := hc.matching_members (name, sys) hreg
    simp only [hreq, signaturesMatch_iff] at h
    exact h hne e hl hm

/-- C2 on a concrete run: one system requiring component types 0 and 1; entity
0 is created and given both components, entity 1 is created and given only
component 0. -/
theorem membership_invariant_witness :
    ∃ final : EntityComponentSystem,
      (EntityComponentSystem.init 4 [("R", 3)]).run
          [.createEntity, .addComponent 0 0, .addComponent 0 1, .createEntity,
            .addComponent 1 0] = .ok final ∧
        ("R", System.mk {0}) ∈ final.m_systems.m_systems ∧
        ((∀ e, e ∈ (System.mk {0}).m_entities →
            e ∈ final.m_entities.live ∧ final.m_entities.signatures e &&& 3 = 3) ∧
          ((3 : Signature) ≠ 0 → ∀ e, e ∈ final.m_entities.live →
            (e ∈ (System.mk {0}).m_entities ↔ final.m_entities.signatures e &&& 3 = 3))) :=
  ⟨_, rfl, by decide,
    membership_invariant 4 [("R", 3)]
      [.createEntity, .addComponent 0 0, .addComponent 0 1, .createEntity, .addComponent 1 0]
      _ rfl "R" { m_entities := {0} } 3 (by decide) (by decide)⟩

/-- C2 as stated fails: with a system whose required signature is all-zero,
creating an entity (zero signature, no notification) yields a live entity that
satisfies `(signature & R) == R` and is in no entity set. -/
theorem membership_invariant_fails_for_zero_requirement :
    ¬ (∀ (maxEntities : Nat) (systems : List (TypeName × Signature)) (ms : List Mutation)
        (final : EntityComponentSystem),
        (EntityComponentSystem.init maxEntities systems).run ms = .ok final →
        ∀ (name : TypeName) (sys : System) (R : Signature),
          (name, sys) ∈ final.m_systems.m_systems →
          final.m_systems.m_signatures.lookup name = some R →
          ∀ e, e ∈ final.m_entities.live →
            (e ∈ sys.m_entities ↔ final.m_entities.signatures e &&& R = R)) := by
  intro h
  have h0 := h 1 [("S", 0)] [.createEntity] _ rfl "S" { m_entities := ∅ } 0
    (by decide) (by decide) 0 (by decide)
  have h1 : (0 : Entity) ∈ (System.mk ∅).m_entities := h0.2 (by decide)
  simp at h1

end cubz.ecs
